import Mathlib

/-! Verification of the forex data-acquisition pipeline
(`data/database.py`, `data/updater.py`, `data/resampler.py`,
`db/schema.py`) against its natural-language specification.

The Python code is shallowly embedded: naive UTC datetimes become
seconds since the Unix epoch (`Timestamp := Nat`; 1970-01-01 was a
Thursday, and Python's `weekday()` numbers Monday as 0), pandas
DataFrames become lists of typed rows with rational prices, database
tables become lists of records keyed by table name, and fallible
calls (database sessions, the MT5 terminal) become `Except`-valued
oracles supplied as arguments.
-/

namespace ForexData

/-- A naive UTC timestamp, as whole seconds since the Unix epoch. -/
abbrev Timestamp := Nat

/-- Python `datetime.weekday()`: Monday = 0 .. Sunday = 6.
The epoch day (1970-01-01) was a Thursday, i.e. weekday 3. -/
def weekday (t : Timestamp) : Nat := (t / 86400 + 3) % 7

/-- The `hour` attribute of a naive UTC datetime. -/
def hourOf (t : Timestamp) : Nat := t % 86400 / 3600

/-- One entry of the `calendar.forex_market_open` configuration list:
a day-of-week key and an optional `"HH:MM"` string (the Python code
reads it with `hours.get("time", default)`). -/
structure MarketHours where
  day : Nat
  time : Option String
deriving Repr, DecidableEq

/-- The `calendar` section of the configuration.
`weekend_trading` is read with `.get("weekend_trading", False)` and
`forex_market_open` with `.get("forex_market_open", [])`, so both have
the defaults already applied. -/
structure CalendarConfig where
  weekend_trading : Bool
  forex_market_open : List MarketHours
deriving Repr, DecidableEq

/-- Python `int(time_str.split(":")[0])` for a well-formed `"HH:MM"` string.
(The configuration files only hold such strings; on a malformed string
Python would raise, which is out of scope here.) -/
def parseHour (s : String) : Nat := (((s.splitOn ":").headD "").toNat?).getD 0

/-- Embeds `DataManager._get_market_close_time` and `DataUpdater._get_market_close_time`:
scan `forex_market_open` for the first entry of the given day and parse its
hour (default string `"22:00"`); return 22 when no entry matches. -/
def get_market_close_time (cal : CalendarConfig) (day : Nat) : Nat :=
  match cal.forex_market_open.find? (fun hours => hours.day == day) with
  | some hours => parseHour (hours.time.getD "22:00")
  | none => 22

/-- Embeds `DataManager._get_market_open_time` and `DataUpdater._get_market_open_time`:
scan `forex_market_open` for the first entry of the given day and parse its
hour (default string `"00:00"`); return 0 when no entry matches. -/
def get_market_open_time (cal : CalendarConfig) (day : Nat) : Nat :=
  match cal.forex_market_open.find? (fun hours => hours.day == day) with
  | some hours => parseHour (hours.time.getD "00:00")
  | none => 0

/-- Embeds `DataManager._is_weekend_gap` (identical in both `DataUpdater`
definitions): a gap is a weekend gap when weekend trading is disabled,
the gap ends on a Monday, starts on a Friday, starts at or after the
Friday market-close hour and ends at or before the Monday market-open
hour. -/
def is_weekend_gap (cal : CalendarConfig) (start stop : Timestamp) : Bool :=
  if !cal.weekend_trading then
    if weekday stop == 0 && weekday start == 4 then
      let friday_close := get_market_close_time cal 4
      let monday_open := get_market_open_time cal 0
      if hourOf start ≥ friday_close && hourOf stop ≤ monday_open then
        true
      else
        false
    else
      false
  else
    false

/-- The `expected_delta` dispatch of `DataManager.find_data_gaps`,
in seconds (`timedelta.total_seconds()` of the Python values). -/
def expected_delta (timeframe : String) : Option Nat :=
  if timeframe == "1m" then some 60
  else if timeframe == "5m" then some 300
  else if timeframe == "15m" then some 900
  else if timeframe == "30m" then some 1800
  else if timeframe == "1h" then some 3600
  else if timeframe == "4h" then some 14400
  else if timeframe == "1d" then some 86400
  else none

/-- The `for i in range(1, len(timestamps))` loop of
`DataManager.find_data_gaps`: walk adjacent pairs, compute
`expected_intervals = int(actual_delta / expected_delta)` (truncating
division of non-negative seconds), and collect the pair when more than
one expected interval fits in the delta and the pair is not a weekend
gap. -/
def gapScan (cal : CalendarConfig) (d : Nat) :
    List Timestamp → List (Timestamp × Timestamp)
  | [] => []
  | [_] => []
  | previous :: current :: rest =>
      (if (current - previous) / d > 1 then
        if is_weekend_gap cal previous current then [] else [(previous, current)]
      else []) ++ gapScan cal d (current :: rest)

/-- Embeds `DataManager.find_data_gaps`, parameterised by the ordered list of
stored timestamps the opening query returns: empty table gives `[]`,
unsupported timeframe gives `[]`, otherwise the adjacent-pair scan. -/
def find_data_gaps (cal : CalendarConfig) (timeframe : String)
    (timestamps : List Timestamp) : List (Timestamp × Timestamp) :=
  if timestamps.isEmpty then []
  else
    match expected_delta timeframe with
    | none => []
    | some d => gapScan cal d timestamps

/-! Price storage (`DataManager.store_price_data`, `db/schema.py`) -/

/-- One row of an input OHLCV DataFrame. Prices are modelled as
rationals (`float` arithmetic precision is not at issue in any claim). -/
structure PriceRow where
  time : Timestamp
  open_ : ℚ
  high : ℚ
  low : ℚ
  close : ℚ
  volume : ℚ
deriving Repr, DecidableEq

/-- An input DataFrame for `store_price_data`: `timeLabeled` records
whether a `'time'` column (or a `'time'`-named index, which the code
resets into a column) is present. -/
structure DataFrame where
  timeLabeled : Bool
  rows : List PriceRow
deriving Repr, DecidableEq

/-- One stored record of a `price_data` table
(the dictionaries built by `store_price_data` before `insert`). -/
structure PriceRecord where
  timestamp : Timestamp
  open_ : ℚ
  high : ℚ
  low : ℚ
  close : ℚ
  volume : ℚ
deriving Repr, DecidableEq

/-- A table of the `price_data` schema, with its declared columns and
primary key. -/
structure PriceTable where
  columns : List String
  primary_key : String
  rows : List PriceRecord
deriving Repr, DecidableEq

/-- The mutable database state: the tables of the `price_data` schema,
keyed by table name. -/
def Database := String → Option PriceTable

/-- Python `str.lower()` on a pair name. (`String.toLower` of the standard
library does not reduce in the kernel, so the character map is spelled
out; the two agree on ASCII pair names.) -/
def lowerString (s : String) : String := ⟨s.data.map Char.toLower⟩

/-- The table-name convention `f"{pair_name.lower()}_{timeframe}"` used
by `create_price_table` and `DataManager._ensure_price_table`. -/
def price_table_name (pair_name timeframe : String) : String :=
  lowerString pair_name ++ "_" ++ timeframe

/-- Embeds `create_price_table` of `db/schema.py`: the freshly created table with
columns timestamp/open/high/low/close/volume, `timestamp` primary key,
and no rows. -/
def create_price_table : PriceTable :=
  { columns := ["timestamp", "open", "high", "low", "close", "volume"]
    primary_key := "timestamp"
    rows := [] }

/-- Embeds `DataManager._ensure_price_table`: return the pair's table, creating
it in the database when absent. -/
def ensure_price_table (db : Database) (pair_name timeframe : String) :
    PriceTable × Database :=
  let name := price_table_name pair_name timeframe
  match db name with
  | some t => (t, db)
  | none => (create_price_table,
      Function.update db name (some create_price_table))

/-- Python `round(x, 6)`, on the rational model: round to the nearest
multiple of `10 ^ (-6)` (the float tie-breaking of Python's banker's
rounding is immaterial to every claim). -/
def round6 (x : ℚ) : ℚ := (round (x * 1000000) : ℤ) / 1000000

/-- Pandas `Series.min` over the `'time'` column. -/
def seriesMin (l : List Timestamp) : Timestamp :=
  match l with
  | [] => 0
  | x :: xs => xs.foldl Nat.min x

/-- Pandas `Series.max` over the `'time'` column. -/
def seriesMax (l : List Timestamp) : Timestamp :=
  match l with
  | [] => 0
  | x :: xs => xs.foldl Nat.max x

/-- Embeds `DataManager.store_price_data` as a state transformer on the
database: reject a missing or empty frame, ensure the pair's table,
reject a frame with no `'time'` column, query the timestamps already
stored in `[min(time), max(time)]`, drop input rows whose timestamp is
among them, and append the remaining rows (prices rounded to six
decimal places) to the pair's table. -/
def store_price_data (db : Database) (pair_name : String)
    (data : Option DataFrame) (timeframe : String) : Bool × Database :=
  match data with
  | none => (false, db)
  | some df =>
    if df.rows.length = 0 then (false, db)
    else
      let tdb := ensure_price_table db pair_name timeframe
      let table := tdb.1
      let db1 := tdb.2
      if !df.timeLabeled then (false, db1)
      else
        let times := df.rows.map PriceRow.time
        let min_time := seriesMin times
        let max_time := seriesMax times
        let existing_times := (table.rows.map PriceRecord.timestamp).filter
          (fun t => decide (min_time ≤ t) && decide (t ≤ max_time))
        let newData := df.rows.filter
          (fun r => !(existing_times.contains r.time))
        if newData.length = 0 then (true, db1)
        else
          let records := newData.map (fun r =>
            { timestamp := r.time
              open_ := round6 r.open_
              high := round6 r.high
              low := round6 r.low
              close := round6 r.close
              volume := r.volume : PriceRecord })
          (true, Function.update db1 (price_table_name pair_name timeframe)
            (some { table with rows := table.rows ++ records }))

/-- The timestamps currently stored in a named table (empty when the
table is absent). -/
def storedTimes (db : Database) (name : String) : List Timestamp :=
  match db name with
  | some t => t.rows.map PriceRecord.timestamp
  | none => []

/-! Resampling (`DataResampler.resample_data`) -/

/-- Embeds `DataResampler.TIMEFRAME_MAP`, as the width in seconds of the
pandas resample rule each timeframe string maps to
(`"1T"`/`"5T"`/`"15T"`/`"30T"`/`"1H"`/`"4H"`/`"1D"`). -/
def TIMEFRAME_MAP (tf : String) : Option Nat :=
  if tf == "1m" then some 60
  else if tf == "5m" then some 300
  else if tf == "15m" then some 900
  else if tf == "30m" then some 1800
  else if tf == "1h" then some 3600
  else if tf == "4h" then some 14400
  else if tf == "1d" then some 86400
  else none

/-- The start of the resample bucket of width `width` containing `t`
(all seven rules start buckets on multiples of their width from
midnight, and a day is a whole number of every width). -/
def bucketStart (width : Nat) (t : Timestamp) : Timestamp := t / width * width

/-- Minimum of a non-empty pandas group of rationals (0 on the empty
list, which aggregation never passes). -/
def groupMin (l : List ℚ) : ℚ :=
  match l with
  | [] => 0
  | x :: xs => xs.foldl min x

/-- Maximum of a non-empty pandas group of rationals. -/
def groupMax (l : List ℚ) : ℚ :=
  match l with
  | [] => 0
  | x :: xs => xs.foldl max x

/-- The rows of the input frame falling in the bucket starting at `k`. -/
def bucketMembers (width : Nat) (k : Timestamp) (rows : List PriceRow) :
    List PriceRow :=
  rows.filter (fun r => bucketStart width r.time == k)

/-- The `.agg({'open': 'first', 'high': 'max', 'low': 'min',
'close': 'last', 'volume': 'sum'})` aggregation of one bucket, indexed
by the bucket's start time. -/
def aggBucket (k : Timestamp) (members : List PriceRow) : PriceRow :=
  { time := k
    open_ := (members.head?.map PriceRow.open_).getD 0
    high := groupMax (members.map PriceRow.high)
    low := groupMin (members.map PriceRow.low)
    close := (members.getLast?.map PriceRow.close).getD 0
    volume := (members.map PriceRow.volume).sum }

/-- The occupied bucket starts of the input frame, in increasing order.
(Pandas emits one output row per bin between the first and last input
time; the `dropna()` that follows the aggregation removes exactly the
empty bins, whose open/high/low/close are NaN, so only the occupied
buckets remain.) -/
def bucketKeys (width : Nat) (rows : List PriceRow) : List Timestamp :=
  List.insertionSort (· ≤ ·)
    ((rows.map (fun r => bucketStart width r.time)).dedup)

/-- Embeds `DataResampler.resample_data`: reject a missing or empty frame and
a frame without a `'time'` column or index, reject unsupported source
or target timeframe strings, pass the data through unchanged when
source and target coincide, and otherwise aggregate each occupied
target bucket (open = first, high = max, low = min, close = last,
volume = sum) and drop the NaN (empty) buckets. -/
def resample_data (data : Option DataFrame)
    (source_timeframe target_timeframe : String) : Option (List PriceRow) :=
  match data with
  | none => none
  | some df =>
    if df.rows.length = 0 then none
    else if !df.timeLabeled then none
    else
      match TIMEFRAME_MAP source_timeframe with
      | none => none
      | some _ =>
        match TIMEFRAME_MAP target_timeframe with
        | none => none
        | some width =>
          if source_timeframe == target_timeframe then some df.rows
          else some ((bucketKeys width df.rows).map
            (fun k => aggBucket k (bucketMembers width k df.rows)))

/-! Scheduled updates (`DataUpdater.run_scheduled_update`) -/

/-- Python `try: ... except: fallback` — run a fallible body, returning the
fallback value when it raises. -/
def tryExcept {α : Type} (body : Except Unit α) (fallback : α) : α :=
  match body with
  | .ok a => a
  | .error _ => fallback

/-- Python `all(results.values())` on the results dictionary of
`update_all_pairs`. -/
def allSucceeded (results : List (String × Bool)) : Bool :=
  results.all (fun pr => pr.2)

/-- Whether attempt number `j` of the retry loop succeeds: its
`update_all_pairs` call returns (rather than raises) a results
dictionary every entry of which is `True`. A raising attempt counts as
failed (the inner `except` of the loop). -/
def attemptOk (outcome : Nat → Except Unit (List (String × Bool)))
    (j : Nat) : Bool :=
  match outcome j with
  | .ok results => allSucceeded results
  | .error _ => false

/-- The `for attempt in range(1, retry_attempts + 1)` loop of
`run_scheduled_update`, with `remaining` attempts still allowed
(including the current one). Returns the number of `update_all_pairs`
calls made and the total seconds slept: a successful attempt returns at
once; a failed or raising attempt sleeps `retry_delay` seconds and
retries when attempts remain, and just ends the loop otherwise. -/
def run_attempts (outcome : Nat → Except Unit (List (String × Bool)))
    (retry_delay : Nat) : Nat → Nat → Nat × Nat
  | _, 0 => (0, 0)
  | _, 1 => (1, 0)
  | attempt, remaining + 2 =>
      if attemptOk outcome attempt then (1, 0)
      else
        let rest := run_attempts outcome retry_delay (attempt + 1)
          (remaining + 1)
        (1 + rest.1, retry_delay + rest.2)

/-- Embeds `DataUpdater.run_scheduled_update`: run the retry loop starting at
attempt 1; both the per-attempt and the surrounding `try/except`
swallow every exception, so the call always returns (the `.ok` trace of
calls made and seconds slept). -/
def run_scheduled_update (outcome : Nat → Except Unit (List (String × Bool)))
    (retry_attempts retry_delay : Nat) : Except Unit (Nat × Nat) :=
  .ok (run_attempts outcome retry_delay 1 retry_attempts)

/-! Parallel per-pair updates (`DataUpdater.update_all_pairs`) -/

/-- The per-future bookkeeping of `update_all_pairs`: the result of a
pair's `_update_single_pair` task, with a raising task recorded as
`False` by the inner `except`. -/
def pairResult (outcome : String → Except Unit Bool) (p : String) : Bool :=
  match outcome p with
  | .ok b => b
  | .error _ => false

/-- Embeds `DataUpdater.update_all_pairs`: return the empty dictionary when MT5 cannot be
initialised or no pairs are configured; otherwise submit one task per
configured pair to the thread pool (bounded by `max_workers`; the pool
itself is abstracted into `order`, the arbitrary completion order of
`as_completed`, always a permutation of the submitted pairs) and
collect each pair's success status. -/
def update_all_pairs (initOk : Bool) (pair_map : List String)
    (outcome : String → Except Unit Bool) (order : List String) :
    List (String × Bool) :=
  if !initOk then []
  else if pair_map.isEmpty then []
  else order.map (fun p => (p, pairResult outcome p))

/-! The duplicated `DataUpdater` class (`data/updater.py`) -/

/-- The sequence of top-level `class DataUpdater:` statements of
`data/updater.py`, in execution order: the statement at lines 20-351
binds version 1, the statement at lines 373-736 rebinds the module
attribute to version 2. -/
def updater_module_class_defs : List (String × Nat) :=
  [("DataUpdater", 1), ("DataUpdater", 2)]

/-- Python module semantics: the binding in effect after the module
body runs is the last assignment to the name. -/
def effective_class_def (binds : List (String × Nat)) (name : String) :
    Option Nat :=
  binds.reverse.lookup name

/-- The DataFrame that the first (shadowed) `update_latest_data` passes
to `store_price_data`: the fetched candles with every row at or after
the current minute filtered out (`df[df.index < current_minute]`);
`none` when the method returns `False` before reaching the store. -/
def update_latest_data_v1_stored (fetched : Option (List PriceRow))
    (current_minute : Timestamp) : Option (List PriceRow) :=
  match fetched with
  | none => none
  | some rows =>
    if rows.length = 0 then none
    else some (rows.filter (fun r => decide (r.time < current_minute)))

/-- The DataFrame that the second (effective) `update_latest_data`
passes to `store_price_data`: the fetched candles unchanged. -/
def update_latest_data_v2_stored (fetched : Option (List PriceRow))
    (_current_minute : Timestamp) : Option (List PriceRow) :=
  match fetched with
  | none => none
  | some rows =>
    if rows.length = 0 then none
    else some rows

/-! Gap filling (effective `DataUpdater.fill_data_gaps`) -/

/-- The per-gap loop of the effective `fill_data_gaps`, counting filled
gaps: a gap larger than `max_gap_seconds`, classified as a weekend gap,
fetching no data, or failing to store is skipped; only a raising fetch
escapes the loop. -/
def fill_gaps_loop (cal : CalendarConfig) (max_gap_seconds : Nat)
    (fetch : Timestamp → Timestamp → Except Unit (Option (List PriceRow)))
    (store : Timestamp → Timestamp → Bool) :
    List (Timestamp × Timestamp) → Except Unit Nat
  | [] => .ok 0
  | (gap_start, gap_end) :: rest =>
      if gap_end - gap_start > max_gap_seconds then
        fill_gaps_loop cal max_gap_seconds fetch store rest
      else if is_weekend_gap cal gap_start gap_end then
        fill_gaps_loop cal max_gap_seconds fetch store rest
      else do
        let gap_df ← fetch gap_start gap_end
        match gap_df with
        | none => fill_gaps_loop cal max_gap_seconds fetch store rest
        | some rows =>
          if rows.length = 0 then
            fill_gaps_loop cal max_gap_seconds fetch store rest
          else if store gap_start gap_end then do
            let n ← fill_gaps_loop cal max_gap_seconds fetch store rest
            pure (n + 1)
          else fill_gaps_loop cal max_gap_seconds fetch store rest

/-- The effective (second) `DataUpdater.fill_data_gaps`: `False` for a
timeframe other than `"1m"`; otherwise find the gaps, sort them by
start time, run the filling loop, and return `True` whatever the loop
counted; the surrounding `try/except` converts any raise (from the gap
query or a fetch) into `False`. -/
def fill_data_gaps (cal : CalendarConfig) (timeframe : String)
    (max_gap_days : Nat)
    (find : Except Unit (List (Timestamp × Timestamp)))
    (fetch : Timestamp → Timestamp → Except Unit (Option (List PriceRow)))
    (store : Timestamp → Timestamp → Bool) : Except Unit Bool :=
  .ok (tryExcept (do
    if timeframe ≠ "1m" then pure false
    else do
      let gaps ← find
      if gaps.isEmpty then pure true
      else do
        let sorted := List.insertionSort (fun x y => x.1 ≤ y.1) gaps
        let _ ← fill_gaps_loop cal (max_gap_days * 86400) fetch store sorted
        pure true) false)

/-! Exception flow of the public operations

Each public operation is re-embedded with its fallible primitives
(database sessions and queries, MT5 fetches) as `Except`-valued
oracles, keeping the `try/except` structure of the source: an
operation that catches everything denotes to `.ok` of its return
value for every oracle. `session.rollback()`, `session.close()` and
`MT5Fetcher.shutdown` are modelled as non-raising. -/

/-- The fallible steps of `store_price_data`, in the order the `try`
block performs them. -/
structure StoreEnv where
  ensure : Except Unit Unit
  query : Except Unit (List Timestamp)
  insert : Except Unit Unit

/-- Exception flow of `DataManager.store_price_data`: the empty-frame
check runs before the `try`, everything else inside it, and the
`except` returns `False`. -/
def store_price_dataE (env : StoreEnv) (data : Option DataFrame) :
    Except Unit Bool :=
  match data with
  | none => .ok false
  | some df =>
    if df.rows.length = 0 then .ok false
    else .ok (tryExcept (do
      let _ ← env.ensure
      if !df.timeLabeled then pure false
      else do
        let existing ← env.query
        let newData := df.rows.filter (fun r => !(existing.contains r.time))
        if newData.length = 0 then pure true
        else do
          let _ ← env.insert
          pure true) false)

/-- Exception flow of `DataManager.get_price_data`: the whole body sits
in the `try`, and the `except` returns `None`. -/
def get_price_dataE (body : Except Unit (Option (List PriceRecord))) :
    Except Unit (Option (List PriceRecord)) :=
  .ok (tryExcept body none)

/-- Exception flow of `DataManager.find_data_gaps`: ensure the table
and query the timestamps inside the `try`, run the pure scan, and
return `[]` from the `except`. -/
def find_data_gapsE (ensure : Except Unit Unit)
    (query : Except Unit (List Timestamp)) (cal : CalendarConfig)
    (timeframe : String) : Except Unit (List (Timestamp × Timestamp)) :=
  .ok (tryExcept (do
    let _ ← ensure
    let ts ← query
    pure (find_data_gaps cal timeframe ts)) [])

/-- Exception flow of `DataManager.get_data_coverage`: the whole body
(scalar queries and the coverage arithmetic) sits in the `try`, and
the `except` returns the empty dictionary. -/
def get_data_coverageE (body : Except Unit (List (String × ℚ))) :
    Except Unit (List (String × ℚ)) :=
  .ok (tryExcept body [])

/-- The two fallible stages of `ensure_currency_pairs`: the
`get_session()` call (which runs before the `try`; `load_config`
documents that it raises `FileNotFoundError` when no configuration
file exists) and the pair-upserting loop inside the `try`. -/
structure EnsurePairsEnv where
  get_session : Except Unit Unit
  body : Except Unit (List (String × Nat))

/-- Exception flow of `DataManager.ensure_currency_pairs`:
`session = get_session()` runs before the `try` statement, so an
exception there propagates; an exception in the loop is caught and
the empty dictionary returned. -/
def ensure_currency_pairsE (env : EnsurePairsEnv) :
    Except Unit (List (String × Nat)) := do
  let _ ← env.get_session
  pure (tryExcept env.body [])

/-- Exception flow of the effective `DataUpdater.update_latest_data`:
fetch and store inside the `try`, `False` from the `except`
(`store_price_data` itself never raises, so its outcome is a plain
boolean). -/
def update_latest_dataE (fetch : Except Unit (Option (List PriceRow)))
    (store : Bool) : Except Unit Bool :=
  .ok (tryExcept (do
    let df ← fetch
    match df with
    | none => pure false
    | some rows =>
      if rows.length = 0 then pure false
      else if store then pure true else pure false) false)

/-- Exception flow of `DataUpdater.update_all_pairs`: the guards and
the `ensure_currency_pairs` call sit inside the `try` (so a raise
there is caught, returning the results accumulated so far — still
empty); each future's exception is caught by the inner `except` and
recorded as `False`. -/
def update_all_pairsE (initOk : Bool)
    (ensure_pairs : Except Unit (List String))
    (outcome : String → Except Unit Bool) (order : List String) :
    Except Unit (List (String × Bool)) :=
  .ok (tryExcept (do
    if !initOk then pure []
    else do
      let pair_map ← ensure_pairs
      if pair_map.isEmpty then pure []
      else pure (order.map (fun p => (p, pairResult outcome p)))) [])

/-! Theorems: one per claim of the specification review, with
their supporting lemmas and concrete witnesses. -/

theorem mem_gapPair (cal : CalendarConfig) (d : Nat) (a b p c : Timestamp) :
    ((p, c) ∈ (if (b - a) / d > 1 then
        if is_weekend_gap cal a b then ([] : List (Timestamp × Timestamp))
        else [(a, b)]
      else [])) ↔
      (p, c) = (a, b) ∧ (b - a) / d > 1 ∧ is_weekend_gap cal a b = false := by
  by_cases h1 : (b - a) / d > 1
  · by_cases h2 : is_weekend_gap cal a b
    · simp [h1, h2]
    · simp [h1, h2]
  · simp [h1]

theorem gapScan_mem (cal : CalendarConfig) (d : Nat) :
    ∀ (ts : List Timestamp) (p c : Timestamp),
      (p, c) ∈ gapScan cal d ts ↔
        (p, c) ∈ ts.zip ts.tail ∧ (c - p) / d > 1 ∧
          is_weekend_gap cal p c = false
  | [], p, c => by simp [gapScan]
  | [_], p, c => by simp [gapScan]
  | a :: b :: rest, p, c => by
      have ih := gapScan_mem cal d (b :: rest) p c
      simp only [gapScan, List.mem_append, mem_gapPair, ih,
        List.zip_cons_cons, List.tail_cons, List.mem_cons]
      by_cases h3 : (p, c) = (a, b)
      · injection h3 with e1 e2
        subst e1
        subst e2
        simp only [true_or, true_and]
        tauto
      · simp [h3]

/-- C1. `DataManager.find_data_gaps` scans adjacent pairs of the
stored timestamps: the expected interval is 60/300/900/1800/3600/14400/86400
seconds for `"1m"`/`"5m"`/`"15m"`/`"30m"`/`"1h"`/`"4h"`/`"1d"`; a pair
`(previous, current)` is reported exactly when more than one whole
expected interval fits in `current - previous` and the pair is not a
weekend gap; an unsupported timeframe or an empty table yields `[]`. -/
theorem find_data_gaps_spec (cal : CalendarConfig) (timeframe : String)
    (ts : List Timestamp) :
    (expected_delta "1m" = some 60 ∧ expected_delta "5m" = some 300 ∧
      expected_delta "15m" = some 900 ∧ expected_delta "30m" = some 1800 ∧
      expected_delta "1h" = some 3600 ∧ expected_delta "4h" = some 14400 ∧
      expected_delta "1d" = some 86400)
    ∧ (expected_delta timeframe = none → find_data_gaps cal timeframe ts = [])
    ∧ (ts = [] → find_data_gaps cal timeframe ts = [])
    ∧ (∀ d, expected_delta timeframe = some d →
        ∀ p c, (p, c) ∈ find_data_gaps cal timeframe ts ↔
          (p, c) ∈ ts.zip ts.tail ∧ (c - p) / d > 1 ∧
            is_weekend_gap cal p c = false) := by
  refine ⟨by simp [expected_delta], ?_, ?_, ?_⟩
  · intro h
    simp [find_data_gaps, h]
  · intro h
    simp [find_data_gaps, h]
  · intro d hd p c
    by_cases hts : ts.isEmpty
    · rw [List.isEmpty_iff] at hts
      subst hts
      simp [find_data_gaps]
    · simp [find_data_gaps, hts, hd, gapScan_mem]

theorem find_data_gaps_spec_witness :
    (60, 300) ∈ find_data_gaps ⟨false, []⟩ "1m" [0, 60, 300] :=
  ((find_data_gaps_spec ⟨false, []⟩ "1m" [0, 60, 300]).2.2.2 60 rfl
    60 300).mpr (by decide)

/-- C3. `_is_weekend_gap start stop` is `true` iff weekend trading
is disabled, `stop` falls on a Monday, `start` on a Friday, `start`'s
hour is at or after the configured Friday close hour, and `stop`'s hour
is at or before the configured Monday open hour; the configured hours
default to 22 and 0 when no matching `forex_market_open` entry exists.
No condition relates the calendar distance between `start` and `stop`,
so a Friday-after-close to Monday-before-open gap is classified as a
weekend gap however many whole weeks lie in between. -/
theorem is_weekend_gap_iff (cal : CalendarConfig) (s e : Timestamp) :
    (is_weekend_gap cal s e = true ↔
      cal.weekend_trading = false ∧ weekday e = 0 ∧ weekday s = 4 ∧
        get_market_close_time cal 4 ≤ hourOf s ∧
        hourOf e ≤ get_market_open_time cal 0)
    ∧ (cal.forex_market_open.find? (fun hours => hours.day == 4) = none →
        get_market_close_time cal 4 = 22)
    ∧ (cal.forex_market_open.find? (fun hours => hours.day == 0) = none →
        get_market_open_time cal 0 = 0) := by
  refine ⟨?_, ?_, ?_⟩
  · rcases cal with ⟨wt, fm⟩
    cases wt
    · simp only [is_weekend_gap]
      by_cases h0 : weekday e == 0 && weekday s == 4
      all_goals simp_all
      all_goals tauto
    · simp [is_weekend_gap]
  · intro h
    simp [get_market_close_time, h]
  · intro h
    simp [get_market_open_time, h]

theorem is_weekend_gap_iff_witness :
    is_weekend_gap ⟨false, []⟩ 165600 1555200 = true :=
  (is_weekend_gap_iff ⟨false, []⟩ 165600 1555200).1.mpr (by decide)

theorem foldl_min_le_init : ∀ (xs : List Nat) (a : Nat), xs.foldl Nat.min a ≤ a
  | [], a => le_refl a
  | y :: ys, a =>
      le_trans (foldl_min_le_init ys (Nat.min a y)) (Nat.min_le_left a y)

theorem foldl_min_le_mem :
    ∀ (xs : List Nat) (a x : Nat), x ∈ xs → xs.foldl Nat.min a ≤ x
  | y :: ys, a, x, h => by
      rcases List.mem_cons.mp h with rfl | h'
      · exact le_trans (foldl_min_le_init ys (Nat.min a x))
          (Nat.min_le_right a x)
      · exact foldl_min_le_mem ys (Nat.min a y) x h'

theorem foldl_max_init_le : ∀ (xs : List Nat) (a : Nat), a ≤ xs.foldl Nat.max a
  | [], a => le_refl a
  | y :: ys, a =>
      le_trans (Nat.le_max_left a y) (foldl_max_init_le ys (Nat.max a y))

theorem foldl_max_mem_le :
    ∀ (xs : List Nat) (a x : Nat), x ∈ xs → x ≤ xs.foldl Nat.max a
  | y :: ys, a, x, h => by
      rcases List.mem_cons.mp h with rfl | h'
      · exact le_trans (Nat.le_max_right a x)
          (foldl_max_init_le ys (Nat.max a x))
      · exact foldl_max_mem_le ys (Nat.max a y) x h'

theorem seriesMin_le_of_mem {l : List Timestamp} {x : Timestamp}
    (h : x ∈ l) : seriesMin l ≤ x := by
  match l with
  | z :: zs =>
      rcases List.mem_cons.mp h with rfl | h'
      · exact foldl_min_le_init zs x
      · exact foldl_min_le_mem zs z x h'

theorem le_seriesMax_of_mem {l : List Timestamp} {x : Timestamp}
    (h : x ∈ l) : x ≤ seriesMax l := by
  match l with
  | z :: zs =>
      rcases List.mem_cons.mp h with rfl | h'
      · exact foldl_max_init_le zs x
      · exact foldl_max_mem_le zs z x h'

theorem storedTimes_ensure (db : Database) (pair_name timeframe : String) :
    storedTimes (ensure_price_table db pair_name timeframe).2
        (price_table_name pair_name timeframe)
      = storedTimes db (price_table_name pair_name timeframe) := by
  unfold ensure_price_table storedTimes
  match h : db (price_table_name pair_name timeframe) with
  | some t => simp [h]
  | none => simp [h, create_price_table]

theorem ensure_fst_timestamps (db : Database) (pair_name timeframe : String) :
    (ensure_price_table db pair_name timeframe).1.rows.map
        PriceRecord.timestamp
      = storedTimes db (price_table_name pair_name timeframe) := by
  unfold ensure_price_table storedTimes
  match h : db (price_table_name pair_name timeframe) with
  | some t => simp [h]
  | none => simp [h, create_price_table]

/-- The inserted-suffix characterisation of `store_price_data`: the
pair's table gains a suffix of timestamps drawn from the input frame,
none of which was stored before the call. -/
theorem store_price_data_inserted (db : Database) (pair_name timeframe : String)
    (df : DataFrame) :
    ∃ ins : List Timestamp,
      storedTimes (store_price_data db pair_name (some df) timeframe).2
          (price_table_name pair_name timeframe)
        = storedTimes db (price_table_name pair_name timeframe) ++ ins
      ∧ ins.Sublist (df.rows.map PriceRow.time)
      ∧ ∀ x ∈ ins, x ∉ storedTimes db (price_table_name pair_name timeframe) := by
  by_cases hlen : df.rows.length = 0
  · exact ⟨[], by simp [store_price_data, hlen], List.nil_sublist _, by simp⟩
  by_cases htl : df.timeLabeled
  case neg =>
    refine ⟨[], ?_, List.nil_sublist _, by simp⟩
    simp [store_price_data, hlen, htl, storedTimes_ensure]
  set name := price_table_name pair_name timeframe with hname
  set table := (ensure_price_table db pair_name timeframe).1 with htable
  set db1 := (ensure_price_table db pair_name timeframe).2 with hdb1
  set times := df.rows.map PriceRow.time with htimes
  set existing_times := (table.rows.map PriceRecord.timestamp).filter
    (fun t => decide (seriesMin times ≤ t) && decide (t ≤ seriesMax times))
    with hex
  set newData := df.rows.filter
    (fun r => !(existing_times.contains r.time)) with hnew
  by_cases hnd : newData.length = 0
  · refine ⟨[], ?_, List.nil_sublist _, by simp⟩
    have : (store_price_data db pair_name (some df) timeframe).2 = db1 := by
      simp only [store_price_data, hlen, htl]
      simp only [← hex, ← hnew, hnd]
      simp
    rw [this, hdb1, hname, storedTimes_ensure]
    simp
  · refine ⟨newData.map PriceRow.time, ?_, ?_, ?_⟩
    · have hstep : (store_price_data db pair_name (some df) timeframe).2
          = Function.update db1 name
              (some { table with rows := table.rows ++ newData.map (fun r =>
                { timestamp := r.time
                  open_ := round6 r.open_
                  high := round6 r.high
                  low := round6 r.low
                  close := round6 r.close
                  volume := r.volume : PriceRecord }) }) := by
        simp only [store_price_data, hlen, htl]
        simp only [← hex, ← hnew, hnd]
        simp [hname, htable, hdb1]
      rw [hstep]
      have hupd : Function.update db1 name
          (some { table with rows := table.rows ++ newData.map (fun r =>
            { timestamp := r.time
              open_ := round6 r.open_
              high := round6 r.high
              low := round6 r.low
              close := round6 r.close
              volume := r.volume : PriceRecord }) }) name
          = some { table with rows := table.rows ++ newData.map (fun r =>
            { timestamp := r.time
              open_ := round6 r.open_
              high := round6 r.high
              low := round6 r.low
              close := round6 r.close
              volume := r.volume : PriceRecord }) } := by
        simp
      rw [storedTimes, hupd]
      simp only [List.map_append, List.map_map]
      have : table.rows.map PriceRecord.timestamp = storedTimes db name := by
        rw [htable, hname]
        exact ensure_fst_timestamps db pair_name timeframe
      rw [this]
      congr 1
    · exact List.Sublist.map PriceRow.time (List.filter_sublist df.rows)
    · intro x hx hxold
      rcases List.mem_map.mp hx with ⟨r, hr, rfl⟩
      have hrmem := List.mem_filter.mp (hnew ▸ hr)
      have hrin : r ∈ df.rows := hrmem.1
      have hpass : (!(existing_times.contains r.time)) = true := hrmem.2
      have hxtimes : r.time ∈ times := htimes ▸ List.mem_map_of_mem _ hrin
      have hxtable : r.time ∈ table.rows.map PriceRecord.timestamp := by
        have : table.rows.map PriceRecord.timestamp = storedTimes db name := by
          rw [htable, hname]
          exact ensure_fst_timestamps db pair_name timeframe
        rw [this]
        exact hxold
      have hxex : r.time ∈ existing_times := by
        rw [hex]
        refine List.mem_filter.mpr ⟨hxtable, ?_⟩
        simp [seriesMin_le_of_mem hxtimes, le_seriesMax_of_mem hxtimes]
      have hmem : existing_times.contains r.time = true := List.elem_iff.mpr hxex
      rw [hmem] at hpass
      simp at hpass

/-- C2. For an input frame with pairwise-distinct `'time'` values,
`store_price_data` inserts only rows whose timestamp was not already
stored in `[min(time), max(time)]` of the pair's table, so a table with
no duplicate timestamps before the call has none after it, and every
timestamp present afterwards is either an old one or a fresh input one
(no duplicate-key collision is attempted). -/
theorem store_price_data_no_duplicate_keys (db : Database)
    (pair_name timeframe : String) (df : DataFrame)
    (hdist : (df.rows.map PriceRow.time).Nodup) :
    ((storedTimes db (price_table_name pair_name timeframe)).Nodup →
      (storedTimes (store_price_data db pair_name (some df) timeframe).2
        (price_table_name pair_name timeframe)).Nodup)
    ∧ (∀ x, x ∈ storedTimes
          (store_price_data db pair_name (some df) timeframe).2
          (price_table_name pair_name timeframe) →
        x ∈ storedTimes db (price_table_name pair_name timeframe) ∨
          (x ∈ df.rows.map PriceRow.time ∧
            x ∉ storedTimes db (price_table_name pair_name timeframe))) := by
  obtain ⟨ins, heq, hsub, hfresh⟩ :=
    store_price_data_inserted db pair_name timeframe df
  constructor
  · intro hold
    rw [heq]
    exact hold.append (hdist.sublist hsub)
      (fun a ha hains => hfresh a hains ha)
  · intro x hx
    rw [heq] at hx
    rcases List.mem_append.mp hx with h | h
    · exact Or.inl h
    · exact Or.inr ⟨hsub.subset h, hfresh x h⟩

theorem store_price_data_no_duplicate_keys_witness :
    (storedTimes
      (store_price_data (fun _ => none) "EURUSD"
        (some ⟨true, [⟨60, 1, 1, 1, 1, 1⟩, ⟨120, 2, 2, 2, 2, 2⟩]⟩) "1m").2
      (price_table_name "EURUSD" "1m")).Nodup :=
  (store_price_data_no_duplicate_keys (fun _ => none) "EURUSD" "1m"
    ⟨true, [⟨60, 1, 1, 1, 1, 1⟩, ⟨120, 2, 2, 2, 2, 2⟩]⟩ (by decide)).1
    (by decide)

/-- The four possible outcomes of `store_price_data` on a present
frame: reject without touching the database, reject or accept after
only ensuring the pair's table, or accept after replacing the pair's
table with a rows-extended copy of itself. -/
theorem store_price_data_cases (db : Database) (pair_name timeframe : String)
    (df : DataFrame) :
    store_price_data db pair_name (some df) timeframe = (false, db)
    ∨ store_price_data db pair_name (some df) timeframe
        = (false, (ensure_price_table db pair_name timeframe).2)
    ∨ store_price_data db pair_name (some df) timeframe
        = (true, (ensure_price_table db pair_name timeframe).2)
    ∨ ∃ rows', store_price_data db pair_name (some df) timeframe
        = (true, Function.update (ensure_price_table db pair_name timeframe).2
            (price_table_name pair_name timeframe)
            (some { (ensure_price_table db pair_name timeframe).1 with
              rows := rows' })) := by
  simp only [store_price_data]
  split
  · exact Or.inl rfl
  · split
    · exact Or.inr (Or.inl rfl)
    · split
      · exact Or.inr (Or.inr (Or.inl rfl))
      · exact Or.inr (Or.inr (Or.inr ⟨_, rfl⟩))

/-- C8. `store_price_data` for pair `P` and timeframe `T` writes
only into the table named `lowercase(P) ++ "_" ++ T`: every other table
of the database is left unchanged, and whenever that table did not
exist before the call but exists after it, it carries the
timestamp/open/high/low/close/volume columns with `timestamp` as
primary key. -/
theorem store_price_data_frame (db : Database) (pair_name timeframe : String)
    (data : Option DataFrame) :
    (∀ other, other ≠ price_table_name pair_name timeframe →
      (store_price_data db pair_name data timeframe).2 other = db other)
    ∧ (db (price_table_name pair_name timeframe) = none →
        ∀ t, (store_price_data db pair_name data timeframe).2
            (price_table_name pair_name timeframe) = some t →
          t.columns = ["timestamp", "open", "high", "low", "close", "volume"]
            ∧ t.primary_key = "timestamp") := by
  have hens : ∀ other, other ≠ price_table_name pair_name timeframe →
      (ensure_price_table db pair_name timeframe).2 other = db other := by
    intro other hother
    unfold ensure_price_table
    match h : db (price_table_name pair_name timeframe) with
    | some t => simp [h]
    | none => simp [h, Function.update_noteq hother]
  constructor
  · intro other hother
    match data with
    | none => rfl
    | some df =>
      rcases store_price_data_cases db pair_name timeframe df with
        h | h | h | ⟨rows', h⟩
      · rw [h]
      · rw [h]
        exact hens other hother
      · rw [h]
        exact hens other hother
      · rw [h]
        dsimp only
        rw [Function.update_noteq hother]
        exact hens other hother
  · intro habsent t ht
    have hens2 : (ensure_price_table db pair_name timeframe).2
        (price_table_name pair_name timeframe) = some create_price_table := by
      unfold ensure_price_table
      simp [habsent]
    have hens1 : (ensure_price_table db pair_name timeframe).1
        = create_price_table := by
      unfold ensure_price_table
      simp [habsent]
    match data with
    | none =>
      rw [show (store_price_data db pair_name none timeframe).2 = db from rfl,
        habsent] at ht
      cases ht
    | some df =>
      rcases store_price_data_cases db pair_name timeframe df with
        h | h | h | ⟨rows', h⟩
      · rw [h] at ht
        dsimp at ht
        rw [habsent] at ht
        cases ht
      · rw [h] at ht
        dsimp at ht
        rw [hens2] at ht
        cases ht
        exact ⟨rfl, rfl⟩
      · rw [h] at ht
        dsimp at ht
        rw [hens2] at ht
        cases ht
        exact ⟨rfl, rfl⟩
      · rw [h] at ht
        dsimp at ht
        rw [Function.update_same] at ht
        cases ht
        rw [hens1]
        exact ⟨rfl, rfl⟩

theorem store_price_data_frame_witness :
    (store_price_data (fun _ => none) "EURUSD"
        (some ⟨true, [⟨60, 1, 1, 1, 1, 1⟩]⟩) "1m").2 "gbpusd_1m"
      = (fun _ => none : Database) "gbpusd_1m" :=
  (store_price_data_frame (fun _ => none) "EURUSD" "1m"
    (some ⟨true, [⟨60, 1, 1, 1, 1, 1⟩]⟩)).1 "gbpusd_1m" (by decide)

theorem foldl_max_mem_cons : ∀ (xs : List ℚ) (a : ℚ), xs.foldl max a ∈ a :: xs
  | [], a => List.mem_singleton.mpr rfl
  | y :: ys, a => by
      have ih := foldl_max_mem_cons ys (max a y)
      simp only [List.foldl_cons]
      rcases List.mem_cons.mp ih with h | h
      · rw [h]
        rcases max_choice a y with hc | hc
        · rw [hc]
          exact List.mem_cons_self _ _
        · rw [hc]
          exact List.mem_cons_of_mem _ (List.mem_cons_self _ _)
      · exact List.mem_cons_of_mem _ (List.mem_cons_of_mem _ h)

theorem le_foldl_max_init : ∀ (xs : List ℚ) (a : ℚ), a ≤ xs.foldl max a
  | [], a => le_refl a
  | y :: ys, a => le_trans (le_max_left a y) (le_foldl_max_init ys (max a y))

theorem le_foldl_max_mem :
    ∀ (xs : List ℚ) (a x : ℚ), x ∈ xs → x ≤ xs.foldl max a
  | y :: ys, a, x, h => by
      rcases List.mem_cons.mp h with rfl | h'
      · exact le_trans (le_max_right a x) (le_foldl_max_init ys (max a x))
      · exact le_foldl_max_mem ys (max a y) x h'

theorem foldl_min_mem_cons : ∀ (xs : List ℚ) (a : ℚ), xs.foldl min a ∈ a :: xs
  | [], a => List.mem_singleton.mpr rfl
  | y :: ys, a => by
      have ih := foldl_min_mem_cons ys (min a y)
      simp only [List.foldl_cons]
      rcases List.mem_cons.mp ih with h | h
      · rw [h]
        rcases min_choice a y with hc | hc
        · rw [hc]
          exact List.mem_cons_self _ _
        · rw [hc]
          exact List.mem_cons_of_mem _ (List.mem_cons_self _ _)
      · exact List.mem_cons_of_mem _ (List.mem_cons_of_mem _ h)

theorem foldl_min_init_le : ∀ (xs : List ℚ) (a : ℚ), xs.foldl min a ≤ a
  | [], a => le_refl a
  | y :: ys, a => le_trans (foldl_min_init_le ys (min a y)) (min_le_left a y)

theorem foldl_min_mem_le :
    ∀ (xs : List ℚ) (a x : ℚ), x ∈ xs → xs.foldl min a ≤ x
  | y :: ys, a, x, h => by
      rcases List.mem_cons.mp h with rfl | h'
      · exact le_trans (foldl_min_init_le ys (min a x)) (min_le_right a x)
      · exact foldl_min_mem_le ys (min a y) x h'

theorem groupMax_mem {l : List ℚ} (h : l ≠ []) : groupMax l ∈ l := by
  match l with
  | x :: xs => exact foldl_max_mem_cons xs x

theorem le_groupMax {l : List ℚ} {x : ℚ} (h : x ∈ l) : x ≤ groupMax l := by
  match l with
  | z :: zs =>
      rcases List.mem_cons.mp h with rfl | h'
      · exact le_foldl_max_init zs x
      · exact le_foldl_max_mem zs z x h'

theorem groupMin_mem {l : List ℚ} (h : l ≠ []) : groupMin l ∈ l := by
  match l with
  | x :: xs => exact foldl_min_mem_cons xs x

theorem groupMin_le {l : List ℚ} {x : ℚ} (h : x ∈ l) : groupMin l ≤ x := by
  match l with
  | z :: zs =>
      rcases List.mem_cons.mp h with rfl | h'
      · exact foldl_min_init_le zs x
      · exact foldl_min_mem_le zs z x h'

/-- C5. `resample_data` returns `None` for an unsupported source or
target timeframe string (anything outside the seven-entry map), a
missing or empty frame, or a frame without a `'time'` column or index;
otherwise (for distinct supported timeframes) it aggregates each
occupied target bucket with open = first, high = max, low = min,
close = last, volume = sum, the buckets appearing sorted, without
duplicates, and being exactly the occupied ones (the `dropna()` effect:
no empty bucket survives). -/
theorem resample_data_spec (data : Option DataFrame) (src tgt : String) :
    (∀ tf : String, TIMEFRAME_MAP tf = none ↔
      (tf ≠ "1m" ∧ tf ≠ "5m" ∧ tf ≠ "15m" ∧ tf ≠ "30m" ∧ tf ≠ "1h" ∧
        tf ≠ "4h" ∧ tf ≠ "1d"))
    ∧ (data = none → resample_data data src tgt = none)
    ∧ (∀ df, data = some df → df.rows = [] →
        resample_data data src tgt = none)
    ∧ (∀ df, data = some df → df.timeLabeled = false →
        resample_data data src tgt = none)
    ∧ (TIMEFRAME_MAP src = none → resample_data data src tgt = none)
    ∧ (TIMEFRAME_MAP tgt = none → resample_data data src tgt = none)
    ∧ (∀ df width, data = some df → df.rows ≠ [] → df.timeLabeled = true →
        (TIMEFRAME_MAP src).isSome = true → TIMEFRAME_MAP tgt = some width →
        src ≠ tgt →
        ∃ out, resample_data data src tgt = some out
          ∧ List.Sorted (· ≤ ·) (out.map PriceRow.time)
          ∧ (out.map PriceRow.time).Nodup
          ∧ (∀ k, k ∈ out.map PriceRow.time ↔
              ∃ r ∈ df.rows, bucketStart width r.time = k)
          ∧ ∀ b ∈ out,
              bucketMembers width b.time df.rows ≠ [] ∧
              b.open_ = ((bucketMembers width b.time df.rows).head?.map
                PriceRow.open_).getD 0 ∧
              b.close = ((bucketMembers width b.time df.rows).getLast?.map
                PriceRow.close).getD 0 ∧
              b.volume = ((bucketMembers width b.time df.rows).map
                PriceRow.volume).sum ∧
              b.high ∈ (bucketMembers width b.time df.rows).map PriceRow.high ∧
              b.low ∈ (bucketMembers width b.time df.rows).map PriceRow.low ∧
              (∀ m ∈ bucketMembers width b.time df.rows,
                m.high ≤ b.high ∧ b.low ≤ m.low)) := by
  refine ⟨?_, ?_, ?_, ?_, ?_, ?_, ?_⟩
  · intro tf
    unfold TIMEFRAME_MAP
    split_ifs <;> simp_all
  · intro h
    rw [h]
    rfl
  · intro df hdf hrows
    rw [hdf]
    simp [resample_data, hrows]
  · intro df hdf hlab
    rw [hdf]
    by_cases hrows : df.rows.length = 0
    · simp [resample_data, hrows]
    · simp [resample_data, hrows, hlab]
  · intro hsrc
    match data with
    | none => rfl
    | some df =>
      by_cases hrows : df.rows.length = 0
      · simp [resample_data, hrows]
      by_cases hlab : df.timeLabeled
      · simp [resample_data, hrows, hlab, hsrc]
      · simp only [Bool.not_eq_true] at hlab
        simp [resample_data, hrows, hlab]
  · intro htgt
    match data with
    | none => rfl
    | some df =>
      by_cases hrows : df.rows.length = 0
      · simp [resample_data, hrows]
      by_cases hlab : df.timeLabeled
      · match hsrc : TIMEFRAME_MAP src with
        | none => simp [resample_data, hrows, hlab, hsrc]
        | some s => simp [resample_data, hrows, hlab, hsrc, htgt]
      · simp only [Bool.not_eq_true] at hlab
        simp [resample_data, hrows, hlab]
  · intro df width hdata hrows hlab hsrc htgt hne
    subst hdata
    obtain ⟨s, hs⟩ := Option.isSome_iff_exists.mp hsrc
    have hlen : ¬df.rows.length = 0 := by
      simpa [List.length_eq_zero] using hrows
    have hbeq : (src == tgt) = false := by
      simpa using hne
    refine ⟨(bucketKeys width df.rows).map
      (fun k => aggBucket k (bucketMembers width k df.rows)), ?_, ?_, ?_, ?_, ?_⟩
    · simp [resample_data, hlen, hlab, hs, htgt, hbeq]
    · have hmap : ((bucketKeys width df.rows).map
          (fun k => aggBucket k (bucketMembers width k df.rows))).map
            PriceRow.time = bucketKeys width df.rows := by
        rw [List.map_map]
        exact List.map_id'' (fun k => rfl) _
      rw [hmap]
      exact List.sorted_insertionSort _ _
    · have hmap : ((bucketKeys width df.rows).map
          (fun k => aggBucket k (bucketMembers width k df.rows))).map
            PriceRow.time = bucketKeys width df.rows := by
        rw [List.map_map]
        exact List.map_id'' (fun k => rfl) _
      rw [hmap]
      exact (List.perm_insertionSort _ _).nodup_iff.mpr (List.nodup_dedup _)
    · intro k
      have hmap : ((bucketKeys width df.rows).map
          (fun k => aggBucket k (bucketMembers width k df.rows))).map
            PriceRow.time = bucketKeys width df.rows := by
        rw [List.map_map]
        exact List.map_id'' (fun k => rfl) _
      rw [hmap]
      unfold bucketKeys
      rw [(List.perm_insertionSort _ _).mem_iff, List.mem_dedup, List.mem_map]
    · intro b hb
      rcases List.mem_map.mp hb with ⟨k, hk, rfl⟩
      have htime : (aggBucket k (bucketMembers width k df.rows)).time = k := rfl
      rw [htime]
      have hknonempty : bucketMembers width k df.rows ≠ [] := by
        unfold bucketKeys at hk
        rw [(List.perm_insertionSort _ _).mem_iff, List.mem_dedup,
          List.mem_map] at hk
        rcases hk with ⟨r, hr, hrk⟩
        have : r ∈ bucketMembers width k df.rows :=
          List.mem_filter.mpr ⟨hr, by simp [hrk]⟩
        exact List.ne_nil_of_mem this
      refine ⟨hknonempty, rfl, rfl, rfl, ?_, ?_, ?_⟩
      · exact groupMax_mem (by simpa using hknonempty)
      · exact groupMin_mem (by simpa using hknonempty)
      · intro m hm
        exact ⟨le_groupMax (List.mem_map_of_mem _ hm),
          groupMin_le (List.mem_map_of_mem _ hm)⟩

theorem resample_data_spec_witness :
    (resample_data
        (some ⟨true, [⟨0, 1, 2, 0, 1, 10⟩, ⟨60, 2, 3, 1, 2, 5⟩]⟩) "1m"
        "5m").isSome = true := by
  obtain ⟨out, heq, -⟩ :=
    (resample_data_spec
      (some ⟨true, [⟨0, 1, 2, 0, 1, 10⟩, ⟨60, 2, 3, 1, 2, 5⟩]⟩)
      "1m" "5m").2.2.2.2.2.2
      ⟨true, [⟨0, 1, 2, 0, 1, 10⟩, ⟨60, 2, 3, 1, 2, 5⟩]⟩ 300 rfl
      (by decide) rfl (by decide) (by decide) (by decide)
  rw [heq]
  rfl

theorem run_attempts_calls_le (outcome : Nat → Except Unit (List (String × Bool)))
    (retry_delay : Nat) :
    ∀ remaining attempt,
      (run_attempts outcome retry_delay attempt remaining).1 ≤ remaining
  | 0, _ => le_refl 0
  | 1, _ => le_refl 1
  | remaining + 2, attempt => by
      by_cases h : attemptOk outcome attempt
      · simp [run_attempts, h]
      · simp only [run_attempts, h, Bool.false_eq_true, if_false]
        have := run_attempts_calls_le outcome retry_delay (remaining + 1)
          (attempt + 1)
        omega

theorem run_attempts_all_fail (outcome : Nat → Except Unit (List (String × Bool)))
    (retry_delay : Nat) :
    ∀ remaining attempt,
      1 ≤ remaining →
      (∀ i, i < remaining → attemptOk outcome (attempt + i) = false) →
      run_attempts outcome retry_delay attempt remaining
        = (remaining, (remaining - 1) * retry_delay)
  | 1, attempt, _, _ => by simp [run_attempts]
  | remaining + 2, attempt, _, hfail => by
      have h0 : attemptOk outcome attempt = false := by
        simpa using hfail 0 (by omega)
      have ih := run_attempts_all_fail outcome retry_delay (remaining + 1)
        (attempt + 1) (by omega)
        (fun i hi => by
          have := hfail (i + 1) (by omega)
          simpa [Nat.add_assoc, Nat.add_comm 1 i] using this)
      simp only [run_attempts, h0, Bool.false_eq_true, if_false, ih]
      simp only [Prod.mk.injEq, Nat.add_sub_cancel]
      constructor
      · omega
      · have h2 : remaining + 2 - 1 = remaining + 1 := by omega
        rw [h2]
        ring

theorem run_attempts_first_success
    (outcome : Nat → Except Unit (List (String × Bool))) (retry_delay : Nat) :
    ∀ remaining attempt i,
      i < remaining →
      attemptOk outcome (attempt + i) = true →
      (∀ j, j < i → attemptOk outcome (attempt + j) = false) →
      run_attempts outcome retry_delay attempt remaining
        = (i + 1, i * retry_delay)
  | 1, attempt, i, hi, _, _ => by
      have : i = 0 := by omega
      subst this
      simp [run_attempts]
  | remaining + 2, attempt, 0, _, hok, _ => by
      simp only [Nat.add_zero] at hok
      simp [run_attempts, hok]
  | remaining + 2, attempt, i + 1, hi, hok, hbefore => by
      have h0 : attemptOk outcome attempt = false := by
        simpa using hbefore 0 (by omega)
      have ih := run_attempts_first_success outcome retry_delay
        (remaining + 1) (attempt + 1) i (by omega)
        (by simpa [Nat.add_assoc, Nat.add_comm 1 i] using hok)
        (fun j hj => by
          have := hbefore (j + 1) (by omega)
          simpa [Nat.add_assoc, Nat.add_comm 1 j] using this)
      simp only [run_attempts, h0, Bool.false_eq_true, if_false, ih]
      simp only [Prod.mk.injEq]
      constructor
      · omega
      · ring

/-- C4. `run_scheduled_update` never raises (it always returns an
`.ok` trace); it calls `update_all_pairs` at most `retry_attempts`
times; when the first successful attempt (one whose results dictionary
has `True` for every pair) is attempt `k`, exactly `k` calls are made
and `(k - 1) * retry_delay` seconds are slept between them; when no
attempt succeeds, all `retry_attempts` calls are made with
`retry_attempts - 1` sleeps in between. -/
theorem run_scheduled_update_spec
    (outcome : Nat → Except Unit (List (String × Bool)))
    (retry_attempts retry_delay : Nat) :
    (∃ trace, run_scheduled_update outcome retry_attempts retry_delay
      = .ok trace)
    ∧ (∀ trace, run_scheduled_update outcome retry_attempts retry_delay
        = .ok trace → trace.1 ≤ retry_attempts)
    ∧ (∀ k, 1 ≤ k → k ≤ retry_attempts → attemptOk outcome k = true →
        (∀ j, 1 ≤ j → j < k → attemptOk outcome j = false) →
        run_scheduled_update outcome retry_attempts retry_delay
          = .ok (k, (k - 1) * retry_delay))
    ∧ (1 ≤ retry_attempts →
        (∀ j, 1 ≤ j → j ≤ retry_attempts → attemptOk outcome j = false) →
        run_scheduled_update outcome retry_attempts retry_delay
          = .ok (retry_attempts, (retry_attempts - 1) * retry_delay)) := by
  refine ⟨⟨_, rfl⟩, ?_, ?_, ?_⟩
  · intro trace htrace
    have := run_attempts_calls_le outcome retry_delay retry_attempts 1
    cases htrace
    exact this
  · intro k hk1 hkR hok hbefore
    have := run_attempts_first_success outcome retry_delay retry_attempts 1
      (k - 1) (by omega)
      (by
        have : 1 + (k - 1) = k := by omega
        rw [this]
        exact hok)
      (fun j hj => hbefore (1 + j) (by omega) (by omega))
    have hk : k - 1 + 1 = k := by omega
    unfold run_scheduled_update
    rw [this, hk]
  · intro hpos hfail
    have := run_attempts_all_fail outcome retry_delay retry_attempts 1 hpos
      (fun i hi => hfail (1 + i) (by omega) (by omega))
    unfold run_scheduled_update
    rw [this]

theorem run_scheduled_update_spec_witness :
    run_scheduled_update
      (fun n => if n = 2 then .ok [("EURUSD", true)]
        else .ok [("EURUSD", false)]) 3 300
      = .ok (2, 300) :=
  (run_scheduled_update_spec
    (fun n => if n = 2 then .ok [("EURUSD", true)]
      else .ok [("EURUSD", false)]) 3 300).2.2.1 2
    (by decide) (by decide) (by decide)
    (by
      intro j h1 h2
      have hj : j = 1 := by omega
      subst hj
      decide)

theorem lookup_map_self :
    ∀ (l : List String) (f : String → Bool) (p : String), p ∈ l →
      (l.map (fun q => (q, f q))).lookup p = some (f p)
  | q :: l', f, p, h => by
      by_cases hpq : (p == q) = true
      · have : p = q := eq_of_beq hpq
        subst this
        simp [List.lookup]
      · have hmem : p ∈ l' := by
          rcases List.mem_cons.mp h with rfl | h'
          · simp at hpq
          · exact h'
        simp only [List.map_cons, List.lookup, hpq]
        exact lookup_map_self l' f p hmem

/-- C7. With MT5 initialised and a non-empty pair map,
`update_all_pairs` submits exactly one task per configured pair
(the result has one entry per pair, whatever completion order the
bounded pool produces), and the returned dictionary maps every
submitted pair to its task's success status, recording `False` for a
task that raised. -/
theorem update_all_pairs_spec (initOk : Bool) (pair_map : List String)
    (outcome : String → Except Unit Bool) (order : List String)
    (hinit : initOk = true) (hne : pair_map ≠ [])
    (hperm : order.Perm pair_map) :
    (update_all_pairs initOk pair_map outcome order).length = pair_map.length
    ∧ (∀ p, p ∈ pair_map →
        (update_all_pairs initOk pair_map outcome order).lookup p
          = some (pairResult outcome p))
    ∧ (∀ p b, (p, b) ∈ update_all_pairs initOk pair_map outcome order →
        p ∈ pair_map ∧ b = pairResult outcome p)
    ∧ (∀ p, outcome p = .error () → pairResult outcome p = false) := by
  subst hinit
  have hres : update_all_pairs true pair_map outcome order
      = order.map (fun p => (p, pairResult outcome p)) := by
    have : pair_map.isEmpty = false := by
      simpa [List.isEmpty_iff] using hne
    simp [update_all_pairs, this]
  refine ⟨?_, ?_, ?_, ?_⟩
  · rw [hres, List.length_map]
    exact hperm.length_eq
  · intro p hp
    rw [hres]
    exact lookup_map_self order (pairResult outcome) p (hperm.mem_iff.mpr hp)
  · intro p b hmem
    rw [hres] at hmem
    rcases List.mem_map.mp hmem with ⟨q, hq, heq⟩
    injection heq with e1 e2
    subst e1
    exact ⟨hperm.mem_iff.mp hq, e2.symm⟩
  · intro p h
    unfold pairResult
    rw [h]

theorem update_all_pairs_spec_witness :
    (update_all_pairs true ["EURUSD", "GBPUSD"]
      (fun p => if p = "EURUSD" then .ok true else .error ())
      ["GBPUSD", "EURUSD"]).lookup "GBPUSD" = some false := by
  have h := (update_all_pairs_spec true ["EURUSD", "GBPUSD"]
    (fun p => if p = "EURUSD" then .ok true else .error ())
    ["GBPUSD", "EURUSD"] rfl (by decide) (by decide)).2.1 "GBPUSD" (by simp)
  simpa [pairResult] using h

/-- C9. The module binds `DataUpdater` twice and the second
definition wins; the effective `update_latest_data` hands every fetched
candle to `store_price_data` unfiltered, while the shadowed first
definition would have dropped rows at or after the current minute — a
concrete current-minute candle distinguishes the two, so the filter is
dead code. -/
theorem updater_shadowing_spec (fetched : Option (List PriceRow))
    (cm : Timestamp) :
    effective_class_def updater_module_class_defs "DataUpdater" = some 2
    ∧ (∀ rows, fetched = some rows → rows ≠ [] →
        update_latest_data_v2_stored fetched cm = some rows)
    ∧ update_latest_data_v1_stored (some [⟨cm, 1, 1, 1, 1, 1⟩]) cm = some []
    ∧ update_latest_data_v2_stored (some [⟨cm, 1, 1, 1, 1, 1⟩]) cm
        = some [⟨cm, 1, 1, 1, 1, 1⟩] := by
  refine ⟨rfl, ?_, ?_, rfl⟩
  · rintro rows rfl hne
    simp [update_latest_data_v2_stored, List.length_eq_zero, hne]
  · simp [update_latest_data_v1_stored, List.filter]

theorem updater_shadowing_spec_witness :
    update_latest_data_v2_stored (some [⟨0, 1, 1, 1, 1, 1⟩]) 0
      = some [⟨0, 1, 1, 1, 1, 1⟩] :=
  (updater_shadowing_spec (some [⟨0, 1, 1, 1, 1, 1⟩]) 0).2.1
    [⟨0, 1, 1, 1, 1, 1⟩] rfl (by decide)

theorem fill_gaps_loop_ok (cal : CalendarConfig) (max_gap_seconds : Nat)
    (fetch : Timestamp → Timestamp → Except Unit (Option (List PriceRow)))
    (store : Timestamp → Timestamp → Bool)
    (hfetch : ∀ s e, ∃ v, fetch s e = .ok v) :
    ∀ gaps, ∃ n,
      fill_gaps_loop cal max_gap_seconds fetch store gaps = .ok n
  | [] => ⟨0, rfl⟩
  | (gs, ge) :: rest => by
      obtain ⟨n, hn⟩ :=
        fill_gaps_loop_ok cal max_gap_seconds fetch store hfetch rest
      obtain ⟨v, hv⟩ := hfetch gs ge
      by_cases h1 : ge - gs > max_gap_seconds
      · exact ⟨n, by simp [fill_gaps_loop, h1, hn]⟩
      by_cases h2 : is_weekend_gap cal gs ge
      · exact ⟨n, by simp [fill_gaps_loop, h1, h2, hn]⟩
      match v with
      | none => exact ⟨n, by
          simp [fill_gaps_loop, h1, h2, hv, hn, Bind.bind, Except.bind]⟩
      | some rows =>
        by_cases h3 : rows.length = 0
        · exact ⟨n, by
            simp [fill_gaps_loop, h1, h2, hv, h3, hn, Bind.bind, Except.bind]⟩
        by_cases h4 : store gs ge
        · exact ⟨n + 1, by
            simp [fill_gaps_loop, h1, h2, hv, h3, h4, hn, Bind.bind,
              Except.bind, pure, Except.pure]⟩
        · exact ⟨n, by
            simp [fill_gaps_loop, h1, h2, hv, h3, h4, hn, Bind.bind,
              Except.bind]⟩

/-- C10. The effective `fill_data_gaps` never raises; it returns
`False` for any timeframe other than `"1m"`; and for `"1m"`, whenever
the gap query returns a list (however it looks) and no fetch raises, it
returns `True` regardless of how many gaps were actually filled —
oversized, weekend, empty-fetch, and failed-store gaps are merely
skipped. -/
theorem fill_data_gaps_spec (cal : CalendarConfig) (timeframe : String)
    (max_gap_days : Nat)
    (find : Except Unit (List (Timestamp × Timestamp)))
    (fetch : Timestamp → Timestamp → Except Unit (Option (List PriceRow)))
    (store : Timestamp → Timestamp → Bool) :
    (∃ b, fill_data_gaps cal timeframe max_gap_days find fetch store = .ok b)
    ∧ (timeframe ≠ "1m" →
        fill_data_gaps cal timeframe max_gap_days find fetch store
          = .ok false)
    ∧ (timeframe = "1m" →
        (∀ s e, ∃ v, fetch s e = .ok v) →
        ∀ gaps, find = .ok gaps →
        fill_data_gaps cal timeframe max_gap_days find fetch store
          = .ok true) := by
  refine ⟨⟨_, rfl⟩, ?_, ?_⟩
  · intro h
    simp [fill_data_gaps, h, tryExcept, pure, Except.pure]
  · intro h hfetch gaps hfind
    subst h
    obtain ⟨n, hn⟩ := fill_gaps_loop_ok cal (max_gap_days * 86400) fetch store
      hfetch (List.insertionSort (fun x y => x.1 ≤ y.1) gaps)
    by_cases hemp : gaps.isEmpty
    · rw [List.isEmpty_iff] at hemp
      subst hemp
      simp [fill_data_gaps, hfind, tryExcept, pure, Except.pure, Bind.bind,
        Except.bind]
    · have hgaps : gaps ≠ [] := by
        simpa [List.isEmpty_iff] using hemp
      simp [fill_data_gaps, hfind, hgaps, hn, tryExcept, pure, Except.pure,
        Bind.bind, Except.bind, Functor.map, Except.map]

theorem fill_data_gaps_spec_witness :
    fill_data_gaps ⟨false, []⟩ "1m" 30 (.ok [(0, 172800)])
      (fun _ _ => .ok (some [⟨60, 1, 1, 1, 1, 1⟩])) (fun _ _ => false)
      = .ok true :=
  (fill_data_gaps_spec ⟨false, []⟩ "1m" 30 (.ok [(0, 172800)])
    (fun _ _ => .ok (some [⟨60, 1, 1, 1, 1, 1⟩])) (fun _ _ => false)).2.2
    rfl (fun _ _ => ⟨_, rfl⟩) [(0, 172800)] rfl

/-- C6, counterexample. `ensure_currency_pairs` does not catch
every exception raised inside it: its `get_session()` call runs before
the `try` block, and when that call raises (as `load_config` documents
it can), the exception propagates to the caller instead of an empty
dictionary being returned. -/
theorem ensure_currency_pairs_can_propagate :
    ensure_currency_pairsE ⟨.error (), .ok []⟩ = .error () := rfl

/-- C6, amended. Every listed operation except
`ensure_currency_pairs` catches every exception its body raises and
returns normally; `ensure_currency_pairs` does so only once its
session acquisition (which precedes its `try` block) has succeeded.
On a raising oracle each operation yields its failure value: `False`,
`None`, `[]`, or the empty dictionary. -/
theorem operations_catch_exceptions :
    (∀ env data, ∃ b, store_price_dataE env data = .ok b)
    ∧ (∀ body, ∃ v, get_price_dataE body = .ok v)
    ∧ (∀ ensure query cal tf, ∃ gaps,
        find_data_gapsE ensure query cal tf = .ok gaps)
    ∧ (∀ body, ∃ d, get_data_coverageE body = .ok d)
    ∧ (∀ env : EnsurePairsEnv, env.get_session = .ok () →
        ∃ m, ensure_currency_pairsE env = .ok m)
    ∧ (∀ fetch store, ∃ b, update_latest_dataE fetch store = .ok b)
    ∧ (∀ cal tf mgd find fetch store, ∃ b,
        fill_data_gaps cal tf mgd find fetch store = .ok b)
    ∧ (∀ initOk ep oc ord, ∃ rs, update_all_pairsE initOk ep oc ord = .ok rs)
    ∧ (∀ query insert data,
        store_price_dataE ⟨.error (), query, insert⟩ data = .ok false)
    ∧ get_price_dataE (.error ()) = .ok none
    ∧ (∀ cal tf, find_data_gapsE (.error ()) (.ok []) cal tf = .ok [])
    ∧ get_data_coverageE (.error ()) = .ok []
    ∧ ensure_currency_pairsE ⟨.ok (), .error ()⟩ = .ok []
    ∧ (∀ store, update_latest_dataE (.error ()) store = .ok false)
    ∧ (∀ cal mgd fetch store,
        fill_data_gaps cal "1m" mgd (.error ()) fetch store = .ok false)
    ∧ (∀ oc ord, update_all_pairsE true (.error ()) oc ord = .ok []) := by
  refine ⟨?_, ?_, ?_, ?_, ?_, ?_, ?_, ?_, ?_, rfl, ?_, rfl, rfl, ?_, ?_, ?_⟩
  · intro env data
    match data with
    | none => exact ⟨false, rfl⟩
    | some df =>
      simp only [store_price_dataE]
      split
      · exact ⟨false, rfl⟩
      · exact ⟨_, rfl⟩
  · intro body
    exact ⟨_, rfl⟩
  · intro ensure query cal tf
    exact ⟨_, rfl⟩
  · intro body
    exact ⟨_, rfl⟩
  · intro env h
    rcases env with ⟨gs, body⟩
    simp only at h
    subst h
    exact ⟨_, rfl⟩
  · intro fetch store
    exact ⟨_, rfl⟩
  · intro cal tf mgd find fetch store
    exact ⟨_, rfl⟩
  · intro initOk ep oc ord
    exact ⟨_, rfl⟩
  · intro query insert data
    match data with
    | none => rfl
    | some df =>
      by_cases h : df.rows.length = 0
      · simp [store_price_dataE, h]
      · simp [store_price_dataE, h, tryExcept, Bind.bind, Except.bind]
  · intro cal tf
    rfl
  · intro store
    rfl
  · intro cal mgd fetch store
    simp [fill_data_gaps, tryExcept, Bind.bind, Except.bind]
  · intro oc ord
    simp [update_all_pairsE, tryExcept, Bind.bind, Except.bind]

theorem operations_catch_exceptions_witness :
    (ensure_currency_pairsE ⟨.ok (), .ok [("EURUSD", 1)]⟩).isOk = true := by
  obtain ⟨m, hm⟩ := operations_catch_exceptions.2.2.2.2.1
    ⟨.ok (), .ok [("EURUSD", 1)]⟩ rfl
  rw [hm]
  rfl

end ForexData
